import Mathlib

/-!
Verification of the popularity-weighted inventory sampler and the
business-lifecycle volume model of the dvdrental_live generator.

The definitions below are shallow embeddings of the Python source:
  - `denseRank`, `boostMultiplier`, `candidateWeight`,
    `calculateZipfianWeights` embed `DVDRentalDataGenerator._calculate_zipfian_weights`
    (src/generator.py);
  - `weightedChoice` and `getWeightedInventoryIdFromList` embed
    `DVDRentalDataGenerator._get_weighted_inventory_id_from_list`
    (src/generator.py), with the result of the SQL candidate query passed
    in as an explicit list and the pseudo-random draw of
    `random.choices` modelled by a cumulative-weight selection at a
    sample point `u`;
  - `get_business_phase`, `AdvMaster.get_volume_modifier`,
    `RunAdvanced.get_volume_modifier` embed the functions of the same
    names in src/level_4_advanced_master/adv_master_simulation.py and
    src/run_advanced_simulation.py (the two `get_business_phase`
    definitions are textually identical, so a single embedding serves
    both);
  - `pythonInt` and `weeklyTarget` embed the
    `int(base_volume * (1 + volume_modifier) * seasonal_multiplier)`
    line of the week loops;
  - `get_week_day_distribution` embeds
    `DVDRentalDataGenerator.get_week_day_distribution` (src/generator.py).

Machine floats are idealised as exact reals (`ℝ`, with `Real.rpow` for
the float `**` operator) or exact rationals (`ℚ`) where only field
operations occur; Python dates are day numbers (`ℤ`), so subtracting
two dates yields the day difference directly.
-/

/-- A candidate row produced by the sampler's SQL query: one inventory
item together with its film id, the film's historical rental count and
(optionally) the film's release date as a day number. -/
structure Candidate where
  inventoryId : ℤ
  filmId : ℕ
  rentalCount : ℕ
  releaseDay : Option ℤ
deriving DecidableEq, Repr

/-- The `new_movie_boost` configuration block read by
`_calculate_zipfian_weights`. -/
structure BoostConfig where
  enabled : Bool
  daysToBoost : ℕ
  boostFactor : ℚ
  boostPercentage : ℕ
deriving DecidableEq, Repr

/-- The source's defaults: `enabled=True, days_to_boost=90,
boost_factor=2.0, boost_percentage=100`. -/
def defaultBoostConfig : BoostConfig := ⟨true, 90, 2, 100⟩

/-- The distinct rental counts sorted descending:
`sorted(set(rental_counts), reverse=True)` in the source. -/
def sortedDistinct (counts : List ℕ) : List ℕ :=
  List.insertionSort (fun a b => a ≥ b) counts.dedup

/-- The rank the source assigns to a rental count: its 1-based index in
the descending list of distinct counts
(`count_to_rank = {count: rank + 1 for rank, count in enumerate(sorted_counts)}`). -/
def denseRank (counts : List ℕ) (c : ℕ) : ℕ :=
  (sortedDistinct counts).indexOf c + 1

/-- The boost multiplier computed inside the candidate loop of
`_calculate_zipfian_weights` when boosting is active: on a day
difference `d` inside the window and for an eligible film, the linearly
decaying factor `boost_factor - (d / days_to_boost) * (boost_factor - 1.0)`;
otherwise no boost (factor 1). -/
def boostMultiplier (cfg : BoostConfig) (filmId : ℕ) (d : ℤ) : ℚ :=
  if 0 ≤ d ∧ d ≤ (cfg.daysToBoost : ℤ) ∧ filmId % 100 < cfg.boostPercentage then
    cfg.boostFactor - ((d : ℚ) / (cfg.daysToBoost : ℚ)) * (cfg.boostFactor - 1)
  else 1

/-- The pre-normalization weight of one candidate:
`1.0 / ((rank + 1) ** alpha)`, multiplied by the boost multiplier when
boosting is enabled and both the sampling date and the candidate's
release date are known. -/
noncomputable def candidateWeight (cfg : BoostConfig) (alpha : ℝ)
    (counts : List ℕ) (currentDay : Option ℤ) (c : Candidate) : ℝ :=
  let base : ℝ := 1 / ((denseRank counts c.rentalCount + 1 : ℕ) : ℝ) ^ alpha
  match cfg.enabled, currentDay, c.releaseDay with
  | true, some cur, some rel => base * (boostMultiplier cfg c.filmId (cur - rel) : ℝ)
  | _, _, _ => base

/-- Embedding of `_calculate_zipfian_weights`: `[1.0]` on an empty
candidate list, otherwise the per-candidate weights normalized to sum
to 1, with a uniform fallback when the total is not positive. -/
noncomputable def calculateZipfianWeights (cfg : BoostConfig) (alpha : ℝ)
    (currentDay : Option ℤ) (cands : List Candidate) : List ℝ :=
  if cands = [] then [1]
  else
    let counts := cands.map Candidate.rentalCount
    let ws := cands.map (candidateWeight cfg alpha counts currentDay)
    let total := ws.sum
    if 0 < total then ws.map (fun w => w / total)
    else ws.map (fun _ => 1 / (ws.length : ℝ))

/-- Cumulative-weight selection, the semantics of
`random.choices(population, weights, k=1)[0]` at sample point `u`
(`u = random.random() * total_weight` in CPython, which bisects the
cumulative weights with `hi = len - 1`, so the last element absorbs the
tail). -/
noncomputable def weightedChoice {α : Type} : ℝ → List α → List ℝ → Option α
  | _, [], _ => none
  | _, [x], _ => some x
  | u, x :: y :: t, w :: ws =>
      if u < w then some x else weightedChoice (u - w) (y :: t) ws
  | _, x :: _ :: _, [] => some x

/-- Error taxonomy of the sampler, distinguishing a missing-candidates
precondition violation from a configuration error; a Python `raise`
would be modelled as `Except.error`. -/
inductive SamplerError where
  | noCandidates : SamplerError
  | badConfig : SamplerError
deriving DecidableEq, Repr

/-- Embedding of `_get_weighted_inventory_id_from_list`: on an empty id
list or an empty query result the source executes `return None`, a
normal return of the `None` sentinel (`Except.ok none`); otherwise it
draws one inventory id with `random.choices` using the Zipfian
weights. -/
noncomputable def getWeightedInventoryIdFromList (cfg : BoostConfig) (alpha : ℝ)
    (currentDay : Option ℤ) (inventoryIds : List ℤ)
    (inventoryData : List Candidate) (u : ℝ) : Except SamplerError (Option ℤ) :=
  if inventoryIds = [] then .ok none
  else if inventoryData = [] then .ok none
  else .ok (weightedChoice u (inventoryData.map Candidate.inventoryId)
      (calculateZipfianWeights cfg alpha currentDay inventoryData))

/-- The `business_lifecycle` configuration: the four phase lengths in
weeks (`growth_phase_weeks`, `plateau_phase_weeks`,
`decline_phase_weeks`, `reactivation_phase_weeks`). -/
structure BusinessPhases where
  growth_phase_weeks : ℕ
  plateau_phase_weeks : ℕ
  decline_phase_weeks : ℕ
  reactivation_phase_weeks : ℕ
deriving DecidableEq, Repr

/-- The `volume_modifiers` configuration: one factor per phase. -/
structure VolumeModifiers where
  growth_factor : ℚ
  plateau_factor : ℚ
  decline_factor : ℚ
  reactivation_factor : ℚ
deriving DecidableEq, Repr

/-- The four business lifecycle phases. -/
inductive Phase where
  | growth : Phase
  | plateau : Phase
  | decline : Phase
  | reactivation : Phase
deriving DecidableEq, Repr

/-- Embedding of `get_business_phase` (identical in
src/run_advanced_simulation.py and
src/level_4_advanced_master/adv_master_simulation.py): cumulative
boundaries, each inclusive of its end week. -/
def get_business_phase (week : ℕ) (bp : BusinessPhases) : Phase :=
  let growthEnd := bp.growth_phase_weeks
  let plateauEnd := growthEnd + bp.plateau_phase_weeks
  let declineEnd := plateauEnd + bp.decline_phase_weeks
  if week ≤ growthEnd then .growth
  else if week ≤ plateauEnd then .plateau
  else if week ≤ declineEnd then .decline
  else .reactivation

namespace AdvMaster

/-- Embedding of `get_volume_modifier` from
src/level_4_advanced_master/adv_master_simulation.py: the growth
modifier scales with the week number, decline and reactivation scale
with the weeks elapsed since the preceding phase boundary. -/
def get_volume_modifier (week : ℕ) (bp : BusinessPhases) (vm : VolumeModifiers) : ℚ :=
  match get_business_phase week bp with
  | .growth => vm.growth_factor * (week : ℚ)
  | .plateau => vm.plateau_factor
  | .decline =>
      vm.decline_factor *
        ((week : ℚ) - ((bp.growth_phase_weeks + bp.plateau_phase_weeks : ℕ) : ℚ))
  | .reactivation =>
      vm.reactivation_factor *
        ((week : ℚ) -
          ((bp.growth_phase_weeks + bp.plateau_phase_weeks + bp.decline_phase_weeks : ℕ) : ℚ))

end AdvMaster

namespace RunAdvanced

/-- Embedding of `get_volume_modifier` from
src/run_advanced_simulation.py: unlike the adv_master variant, it
returns the configured per-phase factor unchanged, with no scaling by
the week number. -/
def get_volume_modifier (week : ℕ) (bp : BusinessPhases) (vm : VolumeModifiers) : ℚ :=
  match get_business_phase week bp with
  | .growth => vm.growth_factor
  | .plateau => vm.plateau_factor
  | .decline => vm.decline_factor
  | .reactivation => vm.reactivation_factor

end RunAdvanced

/-- Python `int()` on an exact value: truncation toward zero. -/
def pythonInt (q : ℚ) : ℤ := if 0 ≤ q then ⌊q⌋ else ⌈q⌉

/-- Embedding of the weekly-target line shared by both week loops:
`adjusted_volume = int(base_volume * (1 + volume_modifier) * seasonal_multiplier)`. -/
def weeklyTarget (base : ℕ) (modifier seasonal : ℚ) : ℤ :=
  pythonInt ((base : ℚ) * (1 + modifier) * seasonal)

/-- Embedding of `get_week_day_distribution` (src/generator.py): the
seven Monday..Sunday shares used to split a week's transactions across
days. Before week 8 a fixed weekend-heavy table; from week 8 on, tables
built from a `progress` value that ramps from 0 to 1 over 16 weeks. -/
def get_week_day_distribution (weeksElapsed : ℕ) : List ℚ :=
  if weeksElapsed < 8 then
    [1/10, 1/10, 1/10, 1/10, 3/20, 1/5, 3/20]
  else
    let progress : ℚ := min (((weeksElapsed : ℚ) - 8) / 16) 1
    let baseWeekday : ℚ := 12/100 + (8/100) * progress
    let baseWeekend : ℚ := 15/100 - (5/100) * progress
    [baseWeekday, baseWeekday, baseWeekday, baseWeekday + 1/100,
     baseWeekend, baseWeekend, baseWeekend - 1/100]

/-- The (104, 208, 104, 104) lifecycle configuration used by the
spec's boundary scenarios. -/
def bp104 : BusinessPhases := ⟨104, 208, 104, 104⟩

/-- Phase factors used to instantiate the volume-modifier scenarios:
`growth_factor = 0.025` as in the spec's scenario. -/
def vmDemo : VolumeModifiers := ⟨1/40, 1, 2, 3⟩

/-- The spec's three-candidate scenario: rental counts 50, 10, 0 and no
known release dates. -/
def scenarioCandidates : List Candidate :=
  [⟨1, 1, 50, none⟩, ⟨2, 2, 10, none⟩, ⟨3, 3, 0, none⟩]

/-! ### Dense rank: the index-based rank of the source equals the
count-of-strictly-greater characterization of a dense rank. -/

lemma indexOf_eq_countP_of_sorted (l : List ℕ)
    (hs : l.Sorted (fun a b => a ≥ b)) (hn : l.Nodup) :
    ∀ c ∈ l, l.indexOf c = l.countP (fun d => c < d) := by
  induction l with
  | nil => intro c hc; cases hc
  | cons a t ih =>
      rcases List.sorted_cons.mp hs with ⟨hat, hts⟩
      rcases List.nodup_cons.mp hn with ⟨hant, hnt⟩
      intro c hc
      rcases List.mem_cons.mp hc with h | h
      · subst h
        rw [List.indexOf_cons_self, List.countP_cons]
        have h0 : (fun d => decide (c < d)) c = false := by simp
        have ht0 : t.countP (fun d => decide (c < d)) = 0 := by
          rw [List.countP_eq_zero]
          intro b hb
          simp only [decide_eq_true_eq]
          exact not_lt.mpr (hat b hb)
        simp [ht0]
      · have hne : c ≠ a := by
          rintro rfl; exact hant h
        rw [List.indexOf_cons_ne _ (Ne.symm hne), List.countP_cons]
        have hca : c < a := lt_of_le_of_ne (hat c h) hne
        simp [ih hts hnt c h, hca, Nat.add_comm]

lemma sortedDistinct_sorted (counts : List ℕ) :
    (sortedDistinct counts).Sorted (fun a b => a ≥ b) :=
  List.sorted_insertionSort _ _

lemma sortedDistinct_perm (counts : List ℕ) :
    List.Perm (sortedDistinct counts) counts.dedup :=
  List.perm_insertionSort _ _

lemma sortedDistinct_nodup (counts : List ℕ) :
    (sortedDistinct counts).Nodup :=
  (sortedDistinct_perm counts).nodup_iff.mpr counts.nodup_dedup

/-- The rank the source computes for a count present in the list is one
more than the number of distinct counts strictly greater than it: the
1-based dense rank over the distinct counts in descending order. -/
lemma denseRank_eq_countP (counts : List ℕ) (c : ℕ) (hc : c ∈ counts) :
    denseRank counts c = counts.dedup.countP (fun d => c < d) + 1 := by
  have hmem : c ∈ sortedDistinct counts :=
    (sortedDistinct_perm counts).mem_iff.mpr (List.mem_dedup.mpr hc)
  unfold denseRank
  rw [indexOf_eq_countP_of_sorted _ (sortedDistinct_sorted counts)
      (sortedDistinct_nodup counts) c hmem,
    (sortedDistinct_perm counts).countP_eq]

/-- Strict monotonicity of the dense rank: a strictly larger count
present in the same list gets a strictly smaller rank. -/
lemma denseRank_lt_of_gt (counts : List ℕ) {a b : ℕ}
    (ha : a ∈ counts) (hb : b ∈ counts) (hab : b < a) :
    denseRank counts a < denseRank counts b := by
  rw [denseRank_eq_countP counts a ha, denseRank_eq_countP counts b hb]
  have hsub : List.Sublist (counts.dedup.filter (fun d => a < d))
      (counts.dedup.filter (fun d => b < d)) := by
    refine List.monotone_filter_right _ ?_
    intro x hx
    simp only [decide_eq_true_eq] at hx ⊢
    exact hab.trans hx
  have hle : (counts.dedup.filter (fun d => a < d)).length ≤
      (counts.dedup.filter (fun d => b < d)).length := hsub.length_le
  have hne : (counts.dedup.filter (fun d => a < d)).length ≠
      (counts.dedup.filter (fun d => b < d)).length := by
    intro heq
    have := hsub.eq_of_length heq
    have hamem : a ∈ counts.dedup.filter (fun d => b < d) := by
      rw [List.mem_filter]
      exact ⟨List.mem_dedup.mpr ha, by simpa using hab⟩
    rw [← this, List.mem_filter] at hamem
    simpa using hamem.2
  rw [List.countP_eq_length_filter, List.countP_eq_length_filter]
  omega

/-! ### Lifecycle phase characterization. -/

lemma phase_growth_iff (week : ℕ) (bp : BusinessPhases) :
    get_business_phase week bp = Phase.growth ↔ week ≤ bp.growth_phase_weeks := by
  simp only [get_business_phase]
  split_ifs with h1 h2 h3 <;> simp_all

lemma phase_plateau_iff (week : ℕ) (bp : BusinessPhases) :
    get_business_phase week bp = Phase.plateau ↔
      bp.growth_phase_weeks < week ∧
        week ≤ bp.growth_phase_weeks + bp.plateau_phase_weeks := by
  simp only [get_business_phase]
  split_ifs with h1 h2 h3 <;> simp_all <;> omega

lemma phase_decline_iff (week : ℕ) (bp : BusinessPhases) :
    get_business_phase week bp = Phase.decline ↔
      bp.growth_phase_weeks + bp.plateau_phase_weeks < week ∧
        week ≤ bp.growth_phase_weeks + bp.plateau_phase_weeks + bp.decline_phase_weeks := by
  simp only [get_business_phase]
  split_ifs with h1 h2 h3 <;> simp_all <;> omega

lemma phase_reactivation_iff (week : ℕ) (bp : BusinessPhases) :
    get_business_phase week bp = Phase.reactivation ↔
      bp.growth_phase_weeks + bp.plateau_phase_weeks + bp.decline_phase_weeks < week := by
  simp only [get_business_phase]
  split_ifs with h1 h2 h3 <;> simp_all <;> omega

/-- C3: the phase resolver maps each week to the phase of the
half-open interval it falls in, boundaries inclusive in the earlier
phase, and on the (104, 208, 104, 104) configuration weeks 104, 105,
312, 313 and 417 resolve to Growth, Plateau, Plateau, Decline and
Reactivation respectively. -/
theorem get_business_phase_boundaries (week : ℕ) (bp : BusinessPhases) :
    (get_business_phase week bp = Phase.growth ↔ week ≤ bp.growth_phase_weeks)
    ∧ (get_business_phase week bp = Phase.plateau ↔
        bp.growth_phase_weeks < week ∧
          week ≤ bp.growth_phase_weeks + bp.plateau_phase_weeks)
    ∧ (get_business_phase week bp = Phase.decline ↔
        bp.growth_phase_weeks + bp.plateau_phase_weeks < week ∧
          week ≤ bp.growth_phase_weeks + bp.plateau_phase_weeks + bp.decline_phase_weeks)
    ∧ (get_business_phase week bp = Phase.reactivation ↔
        bp.growth_phase_weeks + bp.plateau_phase_weeks + bp.decline_phase_weeks < week)
    ∧ get_business_phase 104 ⟨104, 208, 104, 104⟩ = Phase.growth
    ∧ get_business_phase 105 ⟨104, 208, 104, 104⟩ = Phase.plateau
    ∧ get_business_phase 312 ⟨104, 208, 104, 104⟩ = Phase.plateau
    ∧ get_business_phase 313 ⟨104, 208, 104, 104⟩ = Phase.decline
    ∧ get_business_phase 417 ⟨104, 208, 104, 104⟩ = Phase.reactivation :=
  ⟨phase_growth_iff week bp, phase_plateau_iff week bp, phase_decline_iff week bp,
    phase_reactivation_iff week bp, by decide, by decide, by decide, by decide, by decide⟩

/-- C4 (counterexample): the claim's formula `growth_factor × week`
fails on `run_advanced_simulation.get_volume_modifier`, one of the two
cited implementations: with `growth_factor = 0.025` and week 10 deep in
the Growth phase of the (104, 208, 104, 104) configuration it returns
the bare factor 0.025, not 0.25. -/
theorem run_advanced_volume_modifier_not_week_scaled :
    RunAdvanced.get_volume_modifier 10 ⟨104, 208, 104, 104⟩ ⟨1/40, 0, 0, 0⟩ = 1/40
    ∧ RunAdvanced.get_volume_modifier 10 ⟨104, 208, 104, 104⟩ ⟨1/40, 0, 0, 0⟩
        ≠ (1/40 : ℚ) * 10 := by
  have h : RunAdvanced.get_volume_modifier 10 ⟨104, 208, 104, 104⟩ ⟨1/40, 0, 0, 0⟩
      = 1/40 := rfl
  refine ⟨h, ?_⟩
  rw [h]
  norm_num

/-- C4 (amended): the adv_master_simulation implementation does follow
the claimed phase-wise formulas — `growth_factor × week` in Growth, the
constant `plateau_factor` in Plateau, `decline_factor × (week −
plateau_end)` in Decline and `reactivation_factor × (week −
decline_end)` in Reactivation — and on `growth_factor = 0.025`, week 10
in Growth, it yields 0.25; the run_advanced_simulation implementation
instead returns the unscaled per-phase factor. -/
theorem adv_master_volume_modifier_spec (week : ℕ) (bp : BusinessPhases)
    (vm : VolumeModifiers) :
    (week ≤ bp.growth_phase_weeks →
      AdvMaster.get_volume_modifier week bp vm = vm.growth_factor * (week : ℚ))
    ∧ (bp.growth_phase_weeks < week →
        week ≤ bp.growth_phase_weeks + bp.plateau_phase_weeks →
      AdvMaster.get_volume_modifier week bp vm = vm.plateau_factor)
    ∧ (bp.growth_phase_weeks + bp.plateau_phase_weeks < week →
        week ≤ bp.growth_phase_weeks + bp.plateau_phase_weeks + bp.decline_phase_weeks →
      AdvMaster.get_volume_modifier week bp vm =
        vm.decline_factor *
          ((week : ℚ) - ((bp.growth_phase_weeks + bp.plateau_phase_weeks : ℕ) : ℚ)))
    ∧ (bp.growth_phase_weeks + bp.plateau_phase_weeks + bp.decline_phase_weeks < week →
      AdvMaster.get_volume_modifier week bp vm =
        vm.reactivation_factor *
          ((week : ℚ) -
            ((bp.growth_phase_weeks + bp.plateau_phase_weeks + bp.decline_phase_weeks : ℕ) : ℚ)))
    ∧ AdvMaster.get_volume_modifier 10 ⟨104, 208, 104, 104⟩ ⟨1/40, 0, 0, 0⟩ = 1/4 := by
  refine ⟨?_, ?_, ?_, ?_,
    by norm_num [AdvMaster.get_volume_modifier, get_business_phase]⟩
  · intro h
    unfold AdvMaster.get_volume_modifier
    rw [(phase_growth_iff week bp).mpr h]
  · intro h1 h2
    unfold AdvMaster.get_volume_modifier
    rw [(phase_plateau_iff week bp).mpr ⟨h1, h2⟩]
  · intro h1 h2
    unfold AdvMaster.get_volume_modifier
    rw [(phase_decline_iff week bp).mpr ⟨h1, h2⟩]
  · intro h
    unfold AdvMaster.get_volume_modifier
    rw [(phase_reactivation_iff week bp).mpr h]

/-- C4 (witness): the amended phase-wise formulas instantiated on the
(104, 208, 104, 104) configuration at weeks 10, 150, 350 and 450. -/
theorem adv_master_volume_modifier_spec_witness :
    ((10 : ℕ) ≤ 104
      ∧ AdvMaster.get_volume_modifier 10 bp104 vmDemo = 1/4)
    ∧ ((104 : ℕ) < 150 ∧ (150 : ℕ) ≤ 104 + 208
      ∧ AdvMaster.get_volume_modifier 150 bp104 vmDemo = 1)
    ∧ ((104 + 208 : ℕ) < 350 ∧ (350 : ℕ) ≤ 104 + 208 + 104
      ∧ AdvMaster.get_volume_modifier 350 bp104 vmDemo = 76)
    ∧ ((104 + 208 + 104 : ℕ) < 450
      ∧ AdvMaster.get_volume_modifier 450 bp104 vmDemo = 102) :=
  ⟨⟨by decide,
      ((adv_master_volume_modifier_spec 10 bp104 vmDemo).1 (by decide)).trans
        (by norm_num [vmDemo])⟩,
    ⟨by decide, by decide,
      ((adv_master_volume_modifier_spec 150 bp104 vmDemo).2.1
        (by decide) (by decide)).trans (by norm_num [vmDemo])⟩,
    ⟨by decide, by decide,
      ((adv_master_volume_modifier_spec 350 bp104 vmDemo).2.2.1
        (by decide) (by decide)).trans (by norm_num [vmDemo, bp104])⟩,
    ⟨by decide,
      ((adv_master_volume_modifier_spec 450 bp104 vmDemo).2.2.2.1
        (by decide)).trans (by norm_num [vmDemo, bp104])⟩⟩

/-- C5 (counterexample): the week loops compute
`int(base * (1 + modifier) * seasonal)`, which truncates; with base
100, modifier 0.025 and seasonal multiplier 1.05 the product is
107.625, the code's target is 107, while rounding to the nearest
integer as claimed would give 108. -/
theorem weekly_target_not_rounded :
    weeklyTarget 100 (1/40) (21/20) = 107
    ∧ round ((100 : ℚ) * (1 + 1/40) * (21/20)) = 108
    ∧ weeklyTarget 100 (1/40) (21/20) ≠ round ((100 : ℚ) * (1 + 1/40) * (21/20)) := by
  have h1 : weeklyTarget 100 (1/40) (21/20) = 107 := by
    have hq : (((100 : ℕ) : ℚ)) * (1 + 1/40) * (21/20) = 861/8 := by norm_num
    unfold weeklyTarget pythonInt
    rw [hq]
    norm_num [Int.floor_eq_iff]
  have h2 : round ((100 : ℚ) * (1 + 1/40) * (21/20)) = 108 := by
    have hq : (100 : ℚ) * (1 + 1/40) * (21/20) = 861/8 := by norm_num
    rw [hq, round_eq]
    norm_num [Int.floor_eq_iff]
  exact ⟨h1, h2, by rw [h1, h2]; decide⟩

/-- C5 (amended): the weekly transaction target is the *truncation
toward zero* of `base_weekly_transactions × (1 + volume_modifier(week))
× seasonal_multiplier` — for the non-negative products arising in
practice, the floor — not the nearest-integer rounding; composed with
the adv_master volume modifier at base 100, week 1 (Growth,
`growth_factor = 0.025`) and seasonal multiplier 1.05 it yields
`⌊107.625⌋ = 107`. -/
theorem weekly_target_trunc_spec (base week : ℕ) (bp : BusinessPhases)
    (vm : VolumeModifiers) (seasonal : ℚ)
    (h : 0 ≤ (base : ℚ) * (1 + AdvMaster.get_volume_modifier week bp vm) * seasonal) :
    weeklyTarget base (AdvMaster.get_volume_modifier week bp vm) seasonal
      = ⌊(base : ℚ) * (1 + AdvMaster.get_volume_modifier week bp vm) * seasonal⌋
    ∧ weeklyTarget 100 (AdvMaster.get_volume_modifier 1 bp104 vmDemo) (21/20) = 107 := by
  constructor
  · unfold weeklyTarget pythonInt
    rw [if_pos h]
  · have hm : AdvMaster.get_volume_modifier 1 bp104 vmDemo = 1/40 := by
      norm_num [AdvMaster.get_volume_modifier, get_business_phase, bp104, vmDemo]
    rw [hm]
    have hq : (((100 : ℕ) : ℚ)) * (1 + 1/40) * (21/20) = 861/8 := by norm_num
    unfold weeklyTarget pythonInt
    rw [hq]
    norm_num [Int.floor_eq_iff]

/-- C5 (witness): the truncation identity instantiated at base 100,
week 1, the demo configuration and seasonal multiplier 1.05. -/
theorem weekly_target_trunc_spec_witness :
    (0 ≤ (100 : ℚ) * (1 + AdvMaster.get_volume_modifier 1 bp104 vmDemo) * (21/20))
    ∧ weeklyTarget 100 (AdvMaster.get_volume_modifier 1 bp104 vmDemo) (21/20)
        = ⌊(100 : ℚ) * (1 + AdvMaster.get_volume_modifier 1 bp104 vmDemo) * (21/20)⌋ := by
  have h0 : (0:ℚ) ≤ (100 : ℚ) * (1 + AdvMaster.get_volume_modifier 1 bp104 vmDemo) * (21/20) := by
    norm_num [AdvMaster.get_volume_modifier, get_business_phase, bp104, vmDemo]
  exact ⟨h0, (weekly_target_trunc_spec 100 1 bp104 vmDemo (21/20) h0).1⟩

/-- C2: for an enabled boost with `boost_factor ≥ 1`, an eligible film
(`film_id mod 100 < boost_percentage`) and a positive window, the boost
multiplier is exactly `boost_factor` on the release day (d = 0),
exactly 1 at `d = days_to_boost`, and 1 (no boost) for any `d` beyond
the window or before release, whatever the boost percentage; and for a
candidate with a known release date the sampler's weight is the base
weight times this multiplier. -/
theorem boost_window_boundaries (cfg : BoostConfig) (filmId : ℕ) (alpha : ℝ)
    (counts : List ℕ) (henabled : cfg.enabled = true) (hf : 1 ≤ cfg.boostFactor)
    (he : filmId % 100 < cfg.boostPercentage) (hD : 0 < cfg.daysToBoost) :
    boostMultiplier cfg filmId 0 = cfg.boostFactor
    ∧ boostMultiplier cfg filmId (cfg.daysToBoost : ℤ) = 1
    ∧ (∀ d : ℤ, (cfg.daysToBoost : ℤ) < d →
        ∀ pct : ℕ, boostMultiplier { cfg with boostPercentage := pct } filmId d = 1)
    ∧ (∀ d : ℤ, d < 0 →
        ∀ pct : ℕ, boostMultiplier { cfg with boostPercentage := pct } filmId d = 1)
    ∧ (∀ (c : Candidate) (cur rel : ℤ), c.releaseDay = some rel →
        candidateWeight cfg alpha counts (some cur) c
          = (1 / ((denseRank counts c.rentalCount + 1 : ℕ) : ℝ) ^ alpha)
            * ((boostMultiplier cfg c.filmId (cur - rel) : ℚ) : ℝ)) := by
  refine ⟨?_, ?_, ?_, ?_, ?_⟩
  · unfold boostMultiplier
    rw [if_pos ⟨le_refl 0, Int.natCast_nonneg _, he⟩]
    norm_num
  · unfold boostMultiplier
    rw [if_pos ⟨Int.natCast_nonneg _, le_refl _, he⟩]
    have hD0 : ((cfg.daysToBoost : ℤ) : ℚ) = (cfg.daysToBoost : ℚ) := by push_cast; ring
    rw [hD0, div_self (by positivity)]
    ring
  · intro d hd pct
    unfold boostMultiplier
    rw [if_neg]
    rintro ⟨-, h2, -⟩
    simp only at h2
    omega
  · intro d hd pct
    unfold boostMultiplier
    rw [if_neg]
    rintro ⟨h1, -, -⟩
    omega
  · intro c cur rel hrel
    unfold candidateWeight
    rw [henabled, hrel]

/-- C2 (witness): the boundary identities instantiated on the default
boost configuration (factor 2, 90-day window, 100 percent eligibility)
for film 5. -/
theorem boost_window_boundaries_witness :
    defaultBoostConfig.enabled = true
    ∧ (1 : ℚ) ≤ defaultBoostConfig.boostFactor
    ∧ 5 % 100 < defaultBoostConfig.boostPercentage
    ∧ 0 < defaultBoostConfig.daysToBoost
    ∧ boostMultiplier defaultBoostConfig 5 0 = 2
    ∧ boostMultiplier defaultBoostConfig 5 (defaultBoostConfig.daysToBoost : ℤ) = 1
    ∧ boostMultiplier { defaultBoostConfig with boostPercentage := 0 } 5 91 = 1
    ∧ boostMultiplier { defaultBoostConfig with boostPercentage := 0 } 5 (-1) = 1 := by
  have h := boost_window_boundaries defaultBoostConfig 5 1 [] rfl (by norm_num [defaultBoostConfig])
    (by decide) (by decide)
  exact ⟨rfl, by norm_num [defaultBoostConfig], by decide, by decide,
    h.1.trans (by norm_num [defaultBoostConfig]),
    h.2.1,
    h.2.2.1 91 (by norm_num [defaultBoostConfig]) 0,
    h.2.2.2.1 (-1) (by norm_num) 0⟩

/-- Every entry of a rational list with non-negative entries is
non-negative under `getD` with default 0. -/
lemma getD_nonneg_of_forall (l : List ℚ) (h : ∀ x ∈ l, 0 ≤ x) (i : ℕ) :
    0 ≤ l.getD i 0 := by
  rcases lt_or_ge i l.length with hi | hi
  · rw [List.getD_eq_getElem l 0 hi]
    exact h _ (l.getElem_mem hi)
  · rw [List.getD_eq_default l 0 hi]

/-- C9 (counterexample): already at `weeks_elapsed = 0` the
day-of-week table sums to 0.9 (four weekdays at 0.1 plus 0.15 + 0.2 +
0.15), not 1: the seven shares are not a probability distribution. -/
theorem week_day_distribution_sum_ne_one :
    (get_week_day_distribution 0).sum = 9/10
    ∧ (get_week_day_distribution 0).sum ≠ 1 := by
  have h : (get_week_day_distribution 0).sum = 9/10 := by
    simp only [get_week_day_distribution, if_pos (by norm_num : (0:ℕ) < 8),
      List.sum_cons, List.sum_nil]
    norm_num
  exact ⟨h, by rw [h]; norm_num⟩

/-- C9 (amended): the day-of-week table always has seven non-negative
entries, but it is never a probability table: its sum is 0.9 for the
first eight weeks and `0.93 + 0.17 × min((w − 8)/16, 1)` (between 0.93
and 1.10, never exactly 1) from week 8 on. -/
theorem week_day_distribution_spec (w : ℕ) :
    (get_week_day_distribution w).length = 7
    ∧ (∀ i : ℕ, 0 ≤ (get_week_day_distribution w).getD i 0)
    ∧ (get_week_day_distribution w).sum =
        (if w < 8 then 9/10 else 93/100 + 17/100 * min (((w : ℚ) - 8) / 16) 1)
    ∧ (get_week_day_distribution w).sum ≠ 1 := by
  have hsum : (get_week_day_distribution w).sum =
      (if w < 8 then 9/10 else 93/100 + 17/100 * min (((w : ℚ) - 8) / 16) 1) := by
    by_cases hw : w < 8
    · rw [if_pos hw]
      simp only [get_week_day_distribution, if_pos hw, List.sum_cons, List.sum_nil]
      norm_num
    · rw [if_neg hw]
      simp only [get_week_day_distribution, if_neg hw, List.sum_cons, List.sum_nil]
      ring
  by_cases hw : w < 8
  · refine ⟨by simp [get_week_day_distribution, hw], ?_, hsum, ?_⟩
    · intro i
      refine getD_nonneg_of_forall _ ?_ i
      intro x hx
      simp only [get_week_day_distribution, if_pos hw, List.mem_cons,
        List.not_mem_nil, or_false] at hx
      rcases hx with h | h | h | h | h | h | h <;> subst h <;> norm_num
    · rw [hsum, if_pos hw]
      norm_num
  · have h8 : (8 : ℚ) ≤ (w : ℚ) := by
      have h : 8 ≤ w := not_lt.mp hw
      exact_mod_cast h
    have hp0 : 0 ≤ min (((w : ℚ) - 8) / 16) 1 :=
      le_min (div_nonneg (by linarith) (by norm_num)) (by norm_num)
    have hp1 : min (((w : ℚ) - 8) / 16) 1 ≤ 1 := min_le_right _ _
    refine ⟨by simp [get_week_day_distribution, hw], ?_, hsum, ?_⟩
    · intro i
      refine getD_nonneg_of_forall _ ?_ i
      intro x hx
      simp only [get_week_day_distribution, if_neg hw, List.mem_cons,
        List.not_mem_nil, or_false] at hx
      rcases hx with h | h | h | h | h | h | h <;> subst h <;> nlinarith [hp0, hp1]
    · rw [hsum, if_neg hw]
      intro habs
      have hpEq : min (((w : ℚ) - 8) / 16) 1 = 7/17 := by linarith
      rcases min_cases (((w : ℚ) - 8) / 16) 1 with ⟨heq, -⟩ | ⟨heq, -⟩
      · rw [heq] at hpEq
        have hw17 : (17 : ℚ) * (w : ℚ) = 248 := by
          field_simp at hpEq
          linarith
        have hwnat : 17 * w = 248 := by exact_mod_cast hw17
        omega
      · rw [heq] at hpEq
        norm_num at hpEq

/-- C9 (witness): the sum formula evaluated at week 24, where the
transition has completed and the table sums to 1.10. -/
theorem week_day_distribution_spec_witness :
    (get_week_day_distribution 24).sum = 11/10 :=
  ((week_day_distribution_spec 24).2.2.1).trans (by norm_num [min_def])

/-! ### Weight positivity and normalization. -/

lemma boostMultiplier_ge_one (cfg : BoostConfig) (filmId : ℕ) (d : ℤ)
    (hf : 1 ≤ cfg.boostFactor) : 1 ≤ boostMultiplier cfg filmId d := by
  unfold boostMultiplier
  split_ifs with h
  · rcases h with ⟨hd0, hdD, -⟩
    rcases Nat.eq_zero_or_pos cfg.daysToBoost with hD | hD
    · have hd : d = 0 := by omega
      simpa [hd, hD] using hf
    · have hDQ : (0 : ℚ) < (cfg.daysToBoost : ℚ) := by positivity
      have ht1 : ((d : ℚ) / (cfg.daysToBoost : ℚ)) ≤ 1 := by
        rw [div_le_one hDQ]
        exact_mod_cast hdD
      have ht0 : (0 : ℚ) ≤ (d : ℚ) / (cfg.daysToBoost : ℚ) := by
        apply div_nonneg _ (le_of_lt hDQ)
        exact_mod_cast hd0
      nlinarith
  · exact le_refl 1

lemma candidateWeight_no_boost (cfg : BoostConfig) (alpha : ℝ) (counts : List ℕ)
    (c : Candidate) :
    candidateWeight cfg alpha counts none c
      = 1 / ((denseRank counts c.rentalCount + 1 : ℕ) : ℝ) ^ alpha := by
  unfold candidateWeight
  cases cfg.enabled <;> rfl

lemma candidateWeight_pos (cfg : BoostConfig) (alpha : ℝ) (counts : List ℕ)
    (cur : Option ℤ) (c : Candidate) (hf : 1 ≤ cfg.boostFactor) :
    0 < candidateWeight cfg alpha counts cur c := by
  have hbase : 0 < 1 / ((denseRank counts c.rentalCount + 1 : ℕ) : ℝ) ^ alpha := by
    apply div_pos one_pos
    apply Real.rpow_pos_of_pos
    have h : 0 < denseRank counts c.rentalCount + 1 := Nat.succ_pos _
    exact_mod_cast h
  unfold candidateWeight
  rcases hcfg : cfg.enabled with _ | _
  · exact hbase
  · rcases cur with _ | cur
    · exact hbase
    · rcases hrel : c.releaseDay with _ | rel
      · exact hbase
      · have hmul : (0 : ℝ) < ((boostMultiplier cfg c.filmId (cur - rel) : ℚ) : ℝ) := by
          have h1 : (1 : ℚ) ≤ boostMultiplier cfg c.filmId (cur - rel) :=
            boostMultiplier_ge_one cfg c.filmId (cur - rel) hf
          have : (0 : ℚ) < boostMultiplier cfg c.filmId (cur - rel) := lt_of_lt_of_le one_pos h1
          exact_mod_cast this
        exact mul_pos hbase hmul

lemma sum_map_div (l : List ℝ) (c : ℝ) :
    (l.map (fun x => x / c)).sum = l.sum / c := by
  induction l with
  | nil => simp
  | cons a t ih => simp [ih, add_div]

/-- C6: with a non-empty candidate list and `boost_factor ≥ 1`, every
pre-normalization weight is strictly positive, hence the total is
strictly positive, the zero-total uniform fallback is not taken (the
result is exactly the weights divided by their total), and the returned
weights sum to exactly 1. -/
theorem zipfian_weights_sum_one (cfg : BoostConfig) (alpha : ℝ) (cur : Option ℤ)
    (cands : List Candidate) (hne : cands ≠ []) (hf : 1 ≤ cfg.boostFactor) :
    (∀ w ∈ cands.map (candidateWeight cfg alpha (cands.map Candidate.rentalCount) cur), 0 < w)
    ∧ 0 < (cands.map (candidateWeight cfg alpha (cands.map Candidate.rentalCount) cur)).sum
    ∧ calculateZipfianWeights cfg alpha cur cands
        = (cands.map (candidateWeight cfg alpha (cands.map Candidate.rentalCount) cur)).map
            (fun w => w /
              (cands.map (candidateWeight cfg alpha (cands.map Candidate.rentalCount) cur)).sum)
    ∧ (calculateZipfianWeights cfg alpha cur cands).sum = 1 := by
  have hpos : ∀ w ∈ cands.map (candidateWeight cfg alpha (cands.map Candidate.rentalCount) cur),
      0 < w := by
    intro w hw
    rcases List.mem_map.mp hw with ⟨c, -, rfl⟩
    exact candidateWeight_pos cfg alpha (cands.map Candidate.rentalCount) cur c hf
  have hmapne : cands.map (candidateWeight cfg alpha (cands.map Candidate.rentalCount) cur)
      ≠ [] := by
    simpa using hne
  have hsumpos :
      0 < (cands.map (candidateWeight cfg alpha (cands.map Candidate.rentalCount) cur)).sum :=
    List.sum_pos _ hpos hmapne
  have hcalc : calculateZipfianWeights cfg alpha cur cands
      = (cands.map (candidateWeight cfg alpha (cands.map Candidate.rentalCount) cur)).map
          (fun w => w /
            (cands.map (candidateWeight cfg alpha (cands.map Candidate.rentalCount) cur)).sum) := by
    simp only [calculateZipfianWeights]
    rw [if_neg hne, if_pos hsumpos]
  refine ⟨hpos, hsumpos, hcalc, ?_⟩
  rw [hcalc, sum_map_div, div_self (ne_of_gt hsumpos)]

/-- C6 (witness): the normalization conclusions instantiated on the
spec's three-candidate scenario with the default boost configuration. -/
theorem zipfian_weights_sum_one_witness :
    scenarioCandidates ≠ []
    ∧ (1 : ℚ) ≤ defaultBoostConfig.boostFactor
    ∧ (calculateZipfianWeights defaultBoostConfig 1 none scenarioCandidates).sum = 1 :=
  ⟨by simp [scenarioCandidates], by norm_num [defaultBoostConfig],
    (zipfian_weights_sum_one defaultBoostConfig 1 none scenarioCandidates
      (by simp [scenarioCandidates]) (by norm_num [defaultBoostConfig])).2.2.2⟩

/-- C7: among candidates of the same sampling call (shared rental-count
list), with no boost in effect (no sampling date passed) and a positive
alpha, a strictly greater historical rental count yields a weight at
least as large, and strictly larger whenever the dense ranks differ
(which, as `denseRank_lt_of_gt` shows, is always the case for strictly
different counts). -/
theorem weight_monotone_in_count (cfg : BoostConfig) (alpha : ℝ) (counts : List ℕ)
    (cA cB : Candidate) (hA : cA.rentalCount ∈ counts) (hB : cB.rentalCount ∈ counts)
    (hgt : cB.rentalCount < cA.rentalCount) (halpha : 0 < alpha) :
    candidateWeight cfg alpha counts none cB ≤ candidateWeight cfg alpha counts none cA
    ∧ (denseRank counts cA.rentalCount ≠ denseRank counts cB.rentalCount →
        candidateWeight cfg alpha counts none cB < candidateWeight cfg alpha counts none cA) := by
  have hrank : denseRank counts cA.rentalCount < denseRank counts cB.rentalCount :=
    denseRank_lt_of_gt counts hA hB hgt
  have hltℝ : ((denseRank counts cA.rentalCount + 1 : ℕ) : ℝ)
      < ((denseRank counts cB.rentalCount + 1 : ℕ) : ℝ) := by
    exact_mod_cast Nat.add_lt_add_right hrank 1
  have hposA : (0 : ℝ) < ((denseRank counts cA.rentalCount + 1 : ℕ) : ℝ) := by
    exact_mod_cast Nat.succ_pos _
  have hpow : ((denseRank counts cA.rentalCount + 1 : ℕ) : ℝ) ^ alpha
      < ((denseRank counts cB.rentalCount + 1 : ℕ) : ℝ) ^ alpha :=
    Real.rpow_lt_rpow (le_of_lt hposA) hltℝ halpha
  have hstrict : candidateWeight cfg alpha counts none cB
      < candidateWeight cfg alpha counts none cA := by
    rw [candidateWeight_no_boost, candidateWeight_no_boost]
    exact one_div_lt_one_div_of_lt (Real.rpow_pos_of_pos hposA alpha) hpow
  exact ⟨le_of_lt hstrict, fun _ => hstrict⟩

/-- C7 (witness): instantiated on the scenario counts [50, 10, 0] for
the candidates with counts 50 and 10 at alpha 1. -/
theorem weight_monotone_in_count_witness :
    (50 : ℕ) ∈ [50, 10, 0] ∧ (10 : ℕ) ∈ [50, 10, 0] ∧ (10 : ℕ) < 50 ∧ (0 : ℝ) < 1
    ∧ candidateWeight defaultBoostConfig 1 [50, 10, 0] none ⟨2, 2, 10, none⟩
        ≤ candidateWeight defaultBoostConfig 1 [50, 10, 0] none ⟨1, 1, 50, none⟩ :=
  ⟨by decide, by decide, by decide, by norm_num,
    (weight_monotone_in_count defaultBoostConfig 1 [50, 10, 0] ⟨1, 1, 50, none⟩ ⟨2, 2, 10, none⟩
      (by decide) (by decide) (by decide) (by norm_num)).1⟩

/-- Exact evaluation of the sampler's weights on the spec's scenario:
counts [50, 10, 0], alpha 1, no sampling date (hence no boost). -/
lemma scenario_weights_eval :
    calculateZipfianWeights defaultBoostConfig 1 none scenarioCandidates
      = [6/13, 4/13, 3/13] := by
  have r50 : denseRank [50, 10, 0] 50 = 1 := by decide
  have r10 : denseRank [50, 10, 0] 10 = 2 := by decide
  have r0 : denseRank [50, 10, 0] 0 = 3 := by decide
  have w50 : candidateWeight defaultBoostConfig 1 [50, 10, 0] none ⟨1, 1, 50, none⟩
      = 1/2 := by
    rw [candidateWeight_no_boost]
    show (1 : ℝ) / ((denseRank [50, 10, 0] 50 + 1 : ℕ) : ℝ) ^ (1 : ℝ) = 1/2
    rw [r50]
    norm_num [Real.rpow_one]
  have w10 : candidateWeight defaultBoostConfig 1 [50, 10, 0] none ⟨2, 2, 10, none⟩
      = 1/3 := by
    rw [candidateWeight_no_boost]
    show (1 : ℝ) / ((denseRank [50, 10, 0] 10 + 1 : ℕ) : ℝ) ^ (1 : ℝ) = 1/3
    rw [r10]
    norm_num [Real.rpow_one]
  have w0 : candidateWeight defaultBoostConfig 1 [50, 10, 0] none ⟨3, 3, 0, none⟩
      = 1/4 := by
    rw [candidateWeight_no_boost]
    show (1 : ℝ) / ((denseRank [50, 10, 0] 0 + 1 : ℕ) : ℝ) ^ (1 : ℝ) = 1/4
    rw [r0]
    norm_num [Real.rpow_one]
  have hcounts : scenarioCandidates.map Candidate.rentalCount = [50, 10, 0] := rfl
  have hws : scenarioCandidates.map
      (candidateWeight defaultBoostConfig 1 (scenarioCandidates.map Candidate.rentalCount) none)
      = [1/2, 1/3, 1/4] := by
    rw [hcounts]
    simp only [scenarioCandidates, List.map_cons, List.map_nil]
    rw [w50, w10, w0]
  have hsum : ((1:ℝ)/2 + (1/3 + (1/4 + 0))) = 13/12 := by norm_num
  simp only [calculateZipfianWeights]
  rw [if_neg (by simp [scenarioCandidates] : ¬scenarioCandidates = [])]
  rw [hws]
  simp only [List.sum_cons, List.sum_nil]
  rw [hsum, if_pos (by norm_num : (0:ℝ) < 13/12)]
  norm_num

/-- C1: each candidate's rank is the dense rank of its rental count —
one plus the number of distinct counts strictly greater than it, i.e.
its 1-based position among the distinct counts sorted descending, ties
sharing a rank — its base weight (no boost in effect) is
`1 / (rank + 1) ^ alpha`, and on the scenario counts [50, 10, 0] with
alpha 1 the normalized weights are exactly [6/13, 4/13, 3/13]. -/
theorem zipfian_rank_and_scenario (cands : List Candidate) (cfg : BoostConfig)
    (alpha : ℝ) (c : Candidate) (hc : c ∈ cands) :
    denseRank (cands.map Candidate.rentalCount) c.rentalCount
      = (cands.map Candidate.rentalCount).dedup.countP (fun d => c.rentalCount < d) + 1
    ∧ candidateWeight cfg alpha (cands.map Candidate.rentalCount) none c
        = 1 / ((denseRank (cands.map Candidate.rentalCount) c.rentalCount + 1 : ℕ) : ℝ) ^ alpha
    ∧ calculateZipfianWeights defaultBoostConfig 1 none scenarioCandidates
        = [6/13, 4/13, 3/13] :=
  ⟨denseRank_eq_countP _ _ (List.mem_map_of_mem _ hc),
    candidateWeight_no_boost cfg alpha _ c,
    scenario_weights_eval⟩

/-- C1 (witness): the rank characterization and scenario weights at the
top candidate (count 50) of the scenario list. -/
theorem zipfian_rank_and_scenario_witness :
    (⟨1, 1, 50, none⟩ : Candidate) ∈ scenarioCandidates
    ∧ denseRank [50, 10, 0] 50 = ([50, 10, 0] : List ℕ).dedup.countP (fun d => 50 < d) + 1
    ∧ calculateZipfianWeights defaultBoostConfig 1 none scenarioCandidates
        = [6/13, 4/13, 3/13] := by
  have h := zipfian_rank_and_scenario scenarioCandidates defaultBoostConfig 1
    ⟨1, 1, 50, none⟩ (by decide)
  exact ⟨by decide, h.1, h.2.2⟩

/-- Whatever the sample point and weights, cumulative-weight selection
from a non-empty population returns a member of the population. -/
lemma weightedChoice_mem {α : Type} :
    ∀ (l : List α), l ≠ [] → ∀ (u : ℝ) (ws : List ℝ),
      ∃ x ∈ l, weightedChoice u l ws = some x := by
  intro l
  induction l with
  | nil => intro h; exact absurd rfl h
  | cons a t ih =>
      intro _ u ws
      cases t with
      | nil => exact ⟨a, List.mem_singleton_self a, rfl⟩
      | cons b t2 =>
          cases ws with
          | nil => exact ⟨a, List.mem_cons_self a _, rfl⟩
          | cons w ws2 =>
              by_cases hu : u < w
              · refine ⟨a, List.mem_cons_self a _, ?_⟩
                simp only [weightedChoice, if_pos hu]
              · rcases ih (List.cons_ne_nil b t2) (u - w) ws2 with ⟨x, hx, hsel⟩
                refine ⟨x, List.mem_cons_of_mem a hx, ?_⟩
                simp only [weightedChoice, if_neg hu]
                exact hsel

/-- C10: on a non-empty candidate list the sampler returns (without
error) the inventory id of one of the candidates it was given — it
never fabricates an identifier outside its input. -/
theorem sampler_returns_member (cfg : BoostConfig) (alpha : ℝ) (cur : Option ℤ)
    (inventoryIds : List ℤ) (inventoryData : List Candidate) (u : ℝ)
    (hids : inventoryIds ≠ []) (hdata : inventoryData ≠ []) :
    ∃ c ∈ inventoryData,
      getWeightedInventoryIdFromList cfg alpha cur inventoryIds inventoryData u
        = .ok (some c.inventoryId) := by
  have hmapne : inventoryData.map Candidate.inventoryId ≠ [] := by
    simpa using hdata
  rcases weightedChoice_mem (inventoryData.map Candidate.inventoryId) hmapne u
      (calculateZipfianWeights cfg alpha cur inventoryData) with ⟨x, hx, hsel⟩
  rcases List.mem_map.mp hx with ⟨c, hc, rfl⟩
  refine ⟨c, hc, ?_⟩
  unfold getWeightedInventoryIdFromList
  rw [if_neg hids, if_neg hdata, hsel]

/-- C10 (witness): the membership conclusion instantiated on the
scenario candidates at sample point 0. -/
theorem sampler_returns_member_witness :
    ([1, 2, 3] : List ℤ) ≠ []
    ∧ scenarioCandidates ≠ []
    ∧ ∃ c ∈ scenarioCandidates,
        getWeightedInventoryIdFromList defaultBoostConfig 1 none [1, 2, 3]
          scenarioCandidates 0 = .ok (some c.inventoryId) :=
  ⟨by simp, by simp [scenarioCandidates],
    sampler_returns_member defaultBoostConfig 1 none [1, 2, 3] scenarioCandidates 0
      (by simp) (by simp [scenarioCandidates])⟩

/-- C8 (counterexample): called with an empty candidate list the
sampler does not raise: it evaluates to the normal return value
`Except.ok none` — the `None` sentinel — contradicting the claim that
an error is raised. -/
theorem sampler_empty_returns_none :
    getWeightedInventoryIdFromList defaultBoostConfig 1 none [] [] 0
      = .ok none := rfl

/-- C8 (amended): for an empty candidate list the sampler returns the
sentinel `None` as a normal value (`return None` in the source) and the
weight computation returns `[1.0]`; neither path raises, so the error
the claim requires never occurs. -/
theorem sampler_empty_no_error (cfg : BoostConfig) (alpha : ℝ) (cur : Option ℤ)
    (inventoryData : List Candidate) (u : ℝ) :
    getWeightedInventoryIdFromList cfg alpha cur [] inventoryData u = .ok none
    ∧ calculateZipfianWeights cfg alpha cur [] = [1] := by
  constructor
  · unfold getWeightedInventoryIdFromList
    rw [if_pos rfl]
  · unfold calculateZipfianWeights
    rw [if_pos rfl]
